import Mathlib

/-!
Verification of the Nexus scheduler and backend batching executor against
their specification.  The definitions below are a shallow embedding of
`src/src/nexus/scheduler/backend_rpc_client.cpp` and
`src/src/nexus/backend/model_exec.cpp`.  Floating point quantities are
embedded as exact rationals; machine-integer storage points (`uint32_t`)
are noted where they matter.  Collaborators that live outside the
repository snapshot (the profile oracle in `nexus/common/model_db.cpp`,
the `Task` output accounting in `nexus/backend/task.cpp`, the priority
queues of `model_exec.h`) are modelled from the specification and carry a
doc comment saying so.
-/

namespace Nexus

/-- Control status codes used by the scheduler RPC client (subset of the
proto `CtrlStatus` enum that the embedded code distinguishes). -/
inductive CtrlStatus where
  | CTRL_OK
  | CTRL_SERVER_UNREACHABLE
  | CTRL_MODEL_NOT_FOUND
deriving DecidableEq

/-- `ModelSession` proto message: identity of a model deployment.
`latency_sla` is in milliseconds (`uint32`). -/
structure ModelSession where
  framework : String
  model_name : String
  version : Nat
  latency_sla : Nat
  image_height : Option Nat
  image_width : Option Nat
deriving DecidableEq

/-- Modelled from the spec: `ModelSessionToProfileID` lives in
`nexus/common/model_def.h`, which is not part of the snapshot.  The spec
fixes the format `"<framework>:<model_name>:<version>[:<H>x<W>]"`. -/
def ModelSessionToProfileID (s : ModelSession) : String :=
  s.framework ++ ":" ++ s.model_name ++ ":" ++ toString s.version ++
    match s.image_height, s.image_width with
    | some h, some w => ":" ++ toString h ++ "x" ++ toString w
    | _, _ => ""

/-- Modelled from the spec: the profile oracle (`ModelProfile` in
`nexus/common/model_db.cpp` is not part of the snapshot).  A profile is a
table keyed by batch size yielding forward latency (µs) and memory usage
(bytes), plus scalar preprocess/postprocess latencies (µs, `uint32_t` at
the call sites).  The table functions are total here; their values are
meaningful only on `[1, maxKnownBatch]` — a call outside that range is the
`ProfileOutOfRange` failure of the spec, and the theorems about call
ranges inspect the recorded call arguments rather than these junk
values. -/
structure ModelProfile where
  GetForwardLatency : Nat → ℚ
  GetMemoryUsage : Nat → Nat
  GetPreprocessLatency : Nat
  GetPostprocessLatency : Nat
  maxKnownBatch : Nat

/-- Modelled from the spec: `max_throughput(sla_ms)` of the profile oracle
— `max_batch` is the greatest `b` with
`preprocess + forward(b) + postprocess ≤ sla_ms·1000`, and the throughput
`b·1e6 / (sla_ms·1000)` is received through a `uint32_t` at the call site
in `PrepareLoadModel`, hence truncated (ℕ division). -/
def ModelProfile.GetMaxThroughput (p : ModelProfile) (latency_sla : Nat) :
    Nat × Nat :=
  let sla_us : ℚ := latency_sla * 1000
  let max_batch := Nat.findGreatest
    (fun b => 1 ≤ b ∧
      (p.GetPreprocessLatency : ℚ) + p.GetForwardLatency b +
        p.GetPostprocessLatency ≤ sla_us)
    p.maxKnownBatch
  (max_batch, max_batch * 1000000 / (latency_sla * 1000))

/-- `ModelInstanceConfig` proto message.  `forward_latency`, `throughput`
and `workload` are `float` fields (embedded as ℚ); `memory_usage` is an
unsigned integer field, so storing a `float` into it truncates. -/
structure ModelInstanceConfig where
  model_session : Option ModelSession := none
  batch : Nat := 0
  max_batch : Nat := 0
  forward_latency : ℚ := 0
  memory_usage : Nat := 0
  throughput : ℚ := 0
  workload : ℚ := 0
deriving DecidableEq

/-- `latency_sla` of the config's session; proto3 returns the default
(zero) sub-message when the field is unset. -/
def ModelInstanceConfig.session_latency_sla (c : ModelInstanceConfig) : Nat :=
  match c.model_session with
  | some s => s.latency_sla
  | none => 0

/-- The mutable record of `BackendRpcClient` (scheduler-side backend
state).  The RPC stub, addresses and scheduler back-pointer are out of
scope; `last_time` is wall-clock in µs. -/
structure BackendRpcClient where
  node_id : Nat
  gpu_device : String
  gpu_available_memory : Nat
  exec_cycle_us : ℚ
  duty_cycle_us : ℚ
  model_table_config : List ModelInstanceConfig
  dirty_model_table : Bool
  last_time : ℤ
deriving DecidableEq

/-- `ModelDatabase::Singleton().GetModelProfile(gpu_device, profile_id)`
as an explicit lookup parameter: `none` models a missing profile. -/
def ProfileDB : Type := String → String → Option ModelProfile

/-- The `for` loop of the residue branch of
`BackendRpcClient::PrepareLoadModel` (backend_rpc_client.cpp lines 77-88):
starting from `batch`, advance while
`min_duty_cycle + fwd_lat + preprocess + postprocess ≤ latency_sla_us`
and `batch ≤ max_batch`; the returned value is the final `batch` after
the loop followed by the `--batch` decrement. -/
def residueBatchLoop (profile : ModelProfile) (latency_sla_us workload : ℚ)
    (max_batch : Nat) (batch : Nat) : Nat :=
  if h : batch ≤ max_batch then
    let fwd_lat := profile.GetForwardLatency batch
    let min_duty_cycle : ℚ := ((batch : ℚ) - 1) * 1000000 / workload
    if latency_sla_us <
        min_duty_cycle + fwd_lat + (profile.GetPreprocessLatency : ℚ) +
          (profile.GetPostprocessLatency : ℚ) then
      batch - 1
    else
      residueBatchLoop profile latency_sla_us workload max_batch (batch + 1)
  else
    batch - 1
termination_by max_batch + 1 - batch
decreasing_by omega

/-- The inequality the residue loop tests (spec §4.3):
`(b − 1)·1e6/workload + forward(b) + preprocess + postprocess ≤ sla_us`. -/
def residueFits (p : ModelProfile) (latency_sla_us workload : ℚ) (b : Nat) :
    Prop :=
  ((b : ℚ) - 1) * 1000000 / workload + p.GetForwardLatency b +
    (p.GetPreprocessLatency : ℚ) + (p.GetPostprocessLatency : ℚ) ≤
    latency_sla_us

instance (p : ModelProfile) (s w : ℚ) (b : Nat) :
    Decidable (residueFits p s w b) := by
  unfold residueFits; infer_instance

/-- Shallow embedding of `BackendRpcClient::PrepareLoadModel`
(backend_rpc_client.cpp lines 38-114).  `config` and `occupancy` are the
caller-provided out-parameters, threaded through and returned updated.
In the saturating branch the source computes the local
`memory_usage = GetMemoryUsage(max_batch)` but then stores the forward
latency into the config's memory field (`set_memory_usage(fwd_latency)`,
line 69), truncating the float to an unsigned integer. -/
def BackendRpcClient.PrepareLoadModel (db : ProfileDB)
    (self : BackendRpcClient) (model_sess : ModelSession) (workload : ℚ)
    (config : ModelInstanceConfig) (occupancy : ℚ) :
    ModelInstanceConfig × ℚ :=
  let profile_id := ModelSessionToProfileID model_sess
  match db self.gpu_device profile_id with
  | none => ({ config with batch := 0 }, occupancy)
  | some profile =>
    let config := { config with model_session := some model_sess }
    let latency_sla_us : ℚ := model_sess.latency_sla * 1000
    let mt := profile.GetMaxThroughput model_sess.latency_sla
    let max_batch := mt.1
    let max_throughput := mt.2
    if self.exec_cycle_us = 0 then
      if workload = 0 ∨ (max_throughput : ℚ) ≤ workload then
        let fwd_latency := profile.GetForwardLatency max_batch
        ({ config with
            batch := max_batch
            max_batch := max_batch
            forward_latency := fwd_latency
            memory_usage := Nat.floor fwd_latency
            throughput := (max_throughput : ℚ)
            workload := (max_throughput : ℚ) },
         1)
      else
        let batch := residueBatchLoop profile latency_sla_us workload
          max_batch 1
        if batch = 0 then
          ({ config with batch := 0 }, occupancy)
        else
          let fwd_lat := profile.GetForwardLatency batch
          let memory_usage := profile.GetMemoryUsage batch
          let duty_cycle := latency_sla_us - fwd_lat -
            (profile.GetPreprocessLatency : ℚ) -
            (profile.GetPostprocessLatency : ℚ)
          let throughput := (batch : ℚ) * 1000000 / duty_cycle
          ({ config with
              batch := batch
              max_batch := max_batch
              forward_latency := fwd_lat
              memory_usage := memory_usage
              throughput := throughput
              workload := workload },
           fwd_lat / duty_cycle)
    else
      if workload = 0 then ({ config with batch := 0 }, occupancy)
      else ({ config with batch := 0 }, occupancy)

/-- Shallow embedding of
`BackendRpcClient::LoadModel(const ModelInstanceConfig&)`
(backend_rpc_client.cpp lines 116-131).  On a non-idle backend the call
only logs an error and leaves the record unchanged. -/
def BackendRpcClient.LoadModel (self : BackendRpcClient)
    (config : ModelInstanceConfig) : BackendRpcClient :=
  if 0 < self.exec_cycle_us then
    self
  else
    let exec_cycle_us := config.forward_latency
    { self with
        exec_cycle_us := exec_cycle_us
        duty_cycle_us := (config.session_latency_sla : ℚ) * 1000 -
          exec_cycle_us
        model_table_config := self.model_table_config ++ [config]
        dirty_model_table := true }

/-- One entry of the YAML workload file (spec §6). -/
structure WorkloadEntry where
  framework : String
  model_name : String
  version : Nat
  latency_sla : Nat
  image_height : Option Nat
  image_width : Option Nat
  batch : Nat
deriving DecidableEq

/-- The `ModelSession` built from a workload entry by
`LoadModel(const YAML::Node&)` (backend_rpc_client.cpp lines 134-143):
the image dimensions are copied only when `image_height` is present. -/
def WorkloadEntry.toModelSession (e : WorkloadEntry) : ModelSession :=
  { framework := e.framework
    model_name := e.model_name
    version := e.version
    latency_sla := e.latency_sla
    image_height :=
      if e.image_height.isSome then e.image_height else none
    image_width :=
      if e.image_height.isSome then e.image_width else none }

/-- Failure of the static loader: the source dereferences the profile
pointer returned by the database without a null check
(backend_rpc_client.cpp line 150), which is undefined behaviour when the
profile is missing; the embedding surfaces that dereference as an
explicit error. -/
inductive LoadModelError where
  | nullProfileDeref
deriving DecidableEq

/-- Shallow embedding of `BackendRpcClient::LoadModel(const YAML::Node&)`
(backend_rpc_client.cpp lines 133-172): build a config from the workload
entry, push it, add `forward(batch)` to both cycle counters and recompute
every config's throughput and workload as `batch·1e6 / duty_cycle_us`. -/
def BackendRpcClient.LoadModelFromWorkload (db : ProfileDB)
    (self : BackendRpcClient) (model_info : WorkloadEntry) :
    Except LoadModelError BackendRpcClient :=
  let sess : ModelSession := model_info.toModelSession
  let profile_id := ModelSessionToProfileID sess
  match db self.gpu_device profile_id with
  | none => .error LoadModelError.nullProfileDeref
  | some profile =>
    let batch := model_info.batch
    let max_batch := batch
    let memory_usage := profile.GetMemoryUsage max_batch
    let fwd_latency := profile.GetForwardLatency batch
    let config : ModelInstanceConfig :=
      { model_session := some sess
        batch := batch
        max_batch := max_batch
        memory_usage := memory_usage
        forward_latency := fwd_latency }
    let exec_cycle_us := self.exec_cycle_us + fwd_latency
    let duty_cycle_us := self.duty_cycle_us + fwd_latency
    let table := (self.model_table_config ++ [config]).map fun cfg =>
      let throughput := (cfg.batch : ℚ) * 1000000 / duty_cycle_us
      { cfg with throughput := throughput, workload := throughput }
    .ok { self with
            model_table_config := table
            exec_cycle_us := exec_cycle_us
            duty_cycle_us := duty_cycle_us
            dirty_model_table := true }

/-- Shallow embedding of `BackendRpcClient::UpdateModelTable`
(backend_rpc_client.cpp lines 174-195).  `transport = none` models a
failed gRPC call, `transport = some s` a delivered call whose reply
status is `s`.  The third component reports the request sent over the
wire (`none` when no RPC was attempted). -/
def BackendRpcClient.UpdateModelTable (self : BackendRpcClient)
    (transport : Option CtrlStatus) (now : ℤ) :
    CtrlStatus × BackendRpcClient × Option (List ModelInstanceConfig) :=
  if self.dirty_model_table = false then
    (CtrlStatus.CTRL_OK, self, none)
  else
    let request := self.model_table_config
    match transport with
    | none => (CtrlStatus.CTRL_SERVER_UNREACHABLE, self, some request)
    | some reply_status =>
      let self := { self with last_time := now }
      if reply_status = CtrlStatus.CTRL_OK then
        (reply_status, { self with dirty_model_table := false },
         some request)
      else
        (reply_status, self, some request)

/-- Task stages (backend task lifecycle). -/
inductive TaskStage where
  | kPreprocess
  | kForward
  | kPostprocess
  | kDone
deriving DecidableEq

/-- One typed input of a task, as stored in the executor's priority
queue: back-pointer `tid` to the owning task, the input's index within
the task, and the absolute deadline (µs ticks of the wall clock). -/
structure Input where
  tid : Nat
  index : Nat
  deadline : ℤ
deriving DecidableEq

/-- Modelled from the spec: the `Task` output accounting
(`nexus/backend/task.cpp` is not part of the snapshot).  `status` is
`task->result.status()`; `outputs_filled` lists the input indices that
already carry a (real or virtual) output; a task is complete when every
input has one output. -/
structure Task where
  tid : Nat
  status : CtrlStatus
  inputs : List Input
  outputs_filled : List Nat
  stage : TaskStage
deriving DecidableEq

/-- Modelled from the spec: `Task::AddVirtualOutput(index)` records a
placeholder output at `index` and reports whether the task's output set
is now complete. -/
def Task.AddVirtualOutput (t : Task) (index : Nat) : Task × Bool :=
  let t := { t with outputs_filled := t.outputs_filled ++ [index] }
  (t, t.outputs_filled.length == t.inputs.length)

/-- Modelled from the spec: `Task::AddOutput(output)` attaches the real
output produced for the input at `index` and reports completion. -/
def Task.AddOutput (t : Task) (index : Nat) : Task × Bool :=
  let t := { t with outputs_filled := t.outputs_filled ++ [index] }
  (t, t.outputs_filled.length == t.inputs.length)

/-- `processing_tasks_.find / .at`: first map entry with the given task
id (the map holds at most one entry per id). -/
def lookupTask (ts : List Task) (tid : Nat) : Option Task :=
  ts.find? fun t => t.tid == tid

/-- `processing_tasks_.erase(tid)`. -/
def eraseTask (ts : List Task) (tid : Nat) : List Task :=
  ts.filter fun t => t.tid != tid

/-- Mutation of a task object through its shared pointer, as seen by the
map: the entry with the task's id is replaced by the updated object. -/
def updateTask (ts : List Task) (t' : Task) : List Task :=
  ts.map fun t => if t.tid == t'.tid then t' else t

/-- Modelled from the spec: the comparator of the executor's input
priority queue (declared in `model_exec.h`, not part of the snapshot) —
ascending deadline, ties broken by task id then input index. -/
def inputLE (a b : Input) : Prop :=
  a.deadline < b.deadline ∨ (a.deadline = b.deadline ∧
    (a.tid < b.tid ∨ (a.tid = b.tid ∧ a.index ≤ b.index)))

instance : DecidableRel inputLE := fun a b => by
  unfold inputLE; infer_instance

/-- The executor state of `ModelExecutor` (model_exec.cpp).  `plan_batch`
is `model_->batch()` (the planned batch size from the current
`ModelInstanceConfig`), `max_batch` is `model_->max_batch()`; the input
queue is the earliest-deadline-first priority queue, kept sorted;
`task_queue` is the shared postprocess `BlockPriorityQueue`, recorded in
push order. -/
structure ModelExecutor where
  plan_batch : Nat
  max_batch : Nat
  profile : Option ModelProfile
  input_queue : List Input
  processing_tasks : List Task
  task_queue : List Task
  batch_id : Nat

/-- Shallow embedding of `ModelExecutor::AddTask` (model_exec.cpp lines
17-23): `emplace` inserts only when no entry with the task's id exists
(its return value is ignored by the source), and every input of the task
is pushed into the priority queue unconditionally. -/
def ModelExecutor.AddTask (m : ModelExecutor) (task : Task) :
    ModelExecutor :=
  let processing_tasks :=
    if m.processing_tasks.any (fun t => t.tid == task.tid) then
      m.processing_tasks
    else
      m.processing_tasks ++ [task]
  let input_queue := task.inputs.foldl
    (fun q i => List.orderedInsert inputLE i q) m.input_queue
  { m with
      processing_tasks := processing_tasks
      input_queue := input_queue }

/-- Shallow embedding of `ModelExecutor::RemoveTask` (model_exec.cpp
lines 97-102): set the task's stage to postprocess, push it into the
shared postprocess queue, erase it from the processing map. -/
def ModelExecutor.RemoveTask (m : ModelExecutor) (task : Task) :
    ModelExecutor :=
  let task := { task with stage := TaskStage.kPostprocess }
  { m with
      task_queue := m.task_queue ++ [task]
      processing_tasks := eraseTask m.processing_tasks task.tid }

/-- The mutable data threaded through the batch-formation loop of
`GetBatchInput`: the executor's queue/map/shared-queue fields, the batch
under construction (input with owning task id, in append order) and the
inputs that received virtual outputs (in drop order). -/
structure LoopState where
  input_queue : List Input
  processing_tasks : List Task
  task_queue : List Task
  batch_items : List (Input × Nat)
  virtualized : List Input
deriving DecidableEq

/-- The `while` loop of `ModelExecutor::GetBatchInput` (model_exec.cpp
lines 78-93): while the batch has fewer than `batch_size` items and the
queue is non-empty, pop the earliest-deadline input and look up its
owning task; a task that is not OK — or, when a profile is present, an
input whose deadline precedes `finish` — receives a virtual output at
the input's index (removing the task to postprocess when that completes
its output set); otherwise the input is appended to the batch.  `none`
models the `std::out_of_range` thrown by `processing_tasks_.at` when the
owning task is absent. -/
def getBatchLoop (profile : Option ModelProfile) (finish : ℤ)
    (batch_size : Nat) :
    List Input → List Task → List Task → List (Input × Nat) →
      List Input → Option LoopState
  | [], tasks, postq, items, virt =>
    some ⟨[], tasks, postq, items, virt⟩
  | input :: rest, tasks, postq, items, virt =>
    if items.length < batch_size then
      match lookupTask tasks input.tid with
      | none => none
      | some task =>
        if task.status ≠ CtrlStatus.CTRL_OK ∨
            (profile.isSome = true ∧ input.deadline < finish) then
          let r := task.AddVirtualOutput input.index
          let tasks' := updateTask tasks r.1
          if r.2 then
            getBatchLoop profile finish batch_size rest
              (eraseTask tasks' input.tid)
              (postq ++ [{ r.1 with stage := TaskStage.kPostprocess }])
              items (virt ++ [input])
          else
            getBatchLoop profile finish batch_size rest tasks' postq
              items (virt ++ [input])
        else
          getBatchLoop profile finish batch_size rest tasks postq
            (items ++ [(input, task.tid)]) virt
    else
      some ⟨input :: rest, tasks, postq, items, virt⟩

/-- Shallow embedding of `ModelExecutor::GetBatchInput` (model_exec.cpp
lines 67-95).  Returns the updated executor, the formed batch, the
virtualized inputs, and the list of batch arguments passed to
`GetForwardLatency` (the source makes that call whenever a profile is
present, with `batch_size = min(input_queue.size, model.batch)`; the
resulting `finish` adds `int(latency)` µs — a float truncation — to
`now`).  When no profile is present `finish` is the default-constructed
`TimePoint` and is never consulted. -/
def ModelExecutor.GetBatchInput (m : ModelExecutor) (now : ℤ) :
    Option (ModelExecutor × List (Input × Nat) × List Input × List Nat) :=
  let batch_size := min m.input_queue.length m.plan_batch
  let forward_calls :=
    match m.profile with
    | some _ => [batch_size]
    | none => []
  let finish : ℤ :=
    match m.profile with
    | some p => now + Int.floor (p.GetForwardLatency batch_size)
    | none => 0
  match getBatchLoop m.profile finish batch_size m.input_queue
      m.processing_tasks m.task_queue [] [] with
  | none => none
  | some s =>
    some ({ m with
              input_queue := s.input_queue
              processing_tasks := s.processing_tasks
              task_queue := s.task_queue },
          s.batch_items, s.virtualized, forward_calls)

/-- The output fanout of `ModelExecutor::Execute` (model_exec.cpp lines
56-64): walk the batch in order, attach each output to its owning task,
and remove tasks whose output set becomes complete. -/
def ModelExecutor.fanoutOutputs : ModelExecutor → List (Input × Nat) →
    ModelExecutor
  | m, [] => m
  | m, (input, tid) :: rest =>
    match lookupTask m.processing_tasks tid with
    | none => fanoutOutputs m rest
    | some task =>
      let r := task.AddOutput input.index
      let m := { m with
        processing_tasks := updateTask m.processing_tasks r.1 }
      let m := if r.2 then m.RemoveTask r.1 else m
      fanoutOutputs m rest

/-- Shallow embedding of `ModelExecutor::Execute` (model_exec.cpp lines
25-65): allocate the next batch id (`fetch_add`), form the batch; an
empty batch returns immediately; otherwise the forward pass runs and the
outputs fan out to their tasks.  Returns the new state and the allocated
batch id; `none` propagates the owning-task lookup failure of the
formation loop. -/
def ModelExecutor.Execute (m : ModelExecutor) (now : ℤ) :
    Option (ModelExecutor × Nat) :=
  let batch_id := m.batch_id
  let m := { m with batch_id := m.batch_id + 1 }
  match m.GetBatchInput now with
  | none => none
  | some (m, items, _virt, _calls) =>
    if items.length = 0 then
      some (m, batch_id)
    else
      some (m.fanoutOutputs items, batch_id)

/-! ### Helper lemmas -/

theorem eraseTask_idem (ts : List Task) (tid : Nat) :
    eraseTask (eraseTask ts tid) tid = eraseTask ts tid := by
  induction ts with
  | nil => rfl
  | cons t ts ih =>
    unfold eraseTask at ih ⊢
    by_cases h : t.tid = tid <;> simp [h, ih]

theorem foldl_orderedInsert_perm (inputs : List Input) (q : List Input) :
    List.Perm
      (inputs.foldl (fun q i => List.orderedInsert inputLE i q) q)
      (q ++ inputs) := by
  induction inputs generalizing q with
  | nil => simp
  | cons i is ih =>
    refine (ih (List.orderedInsert inputLE i q)).trans ?_
    have h1 : List.Perm (List.orderedInsert inputLE i q ++ is)
        ((i :: q) ++ is) :=
      (List.perm_orderedInsert inputLE i q).append_right is
    refine h1.trans ?_
    simpa using (@List.perm_middle _ i q is).symm

/-! ### C6 — UpdateModelTable -/

/-- Concrete scheduler-side backend records used for witnesses. -/
def bkClean : BackendRpcClient :=
  { node_id := 1, gpu_device := "gpu0", gpu_available_memory := 1000000
    exec_cycle_us := 0, duty_cycle_us := 0, model_table_config := []
    dirty_model_table := false, last_time := 0 }

def cfgDirty : ModelInstanceConfig :=
  { batch := 4, max_batch := 4, forward_latency := 1000 }

def bkDirty : BackendRpcClient :=
  { bkClean with
      model_table_config := [cfgDirty]
      dirty_model_table := true }

/-- C6: if the model table is not dirty, `UpdateModelTable` is a no-op
returning `CTRL_OK`; otherwise the current `model_table_config` is sent
over the control RPC; on transport failure the call returns
`CTRL_SERVER_UNREACHABLE` with the record (hence the dirty flag)
unchanged; on transport success the reply status is returned and the
dirty flag is cleared exactly when that status is `CTRL_OK`. -/
theorem updateModelTable_spec (self : BackendRpcClient)
    (transport : Option CtrlStatus) (now : ℤ) :
    (self.dirty_model_table = false →
      self.UpdateModelTable transport now =
        (CtrlStatus.CTRL_OK, self, none)) ∧
    (self.dirty_model_table = true →
      (self.UpdateModelTable transport now).2.2 =
        some self.model_table_config) ∧
    (self.dirty_model_table = true → transport = none →
      (self.UpdateModelTable transport now).1 =
          CtrlStatus.CTRL_SERVER_UNREACHABLE ∧
        (self.UpdateModelTable transport now).2.1 = self) ∧
    (∀ reply, self.dirty_model_table = true → transport = some reply →
      (self.UpdateModelTable transport now).1 = reply ∧
      ((self.UpdateModelTable transport now).2.1.dirty_model_table = false ↔
        reply = CtrlStatus.CTRL_OK) ∧
      (self.UpdateModelTable transport now).2.1.model_table_config =
        self.model_table_config) := by
  refine ⟨?_, ?_, ?_, ?_⟩
  · intro hd
    simp [BackendRpcClient.UpdateModelTable, hd]
  · intro hd
    cases transport with
    | none => simp [BackendRpcClient.UpdateModelTable, hd]
    | some reply =>
      by_cases hr : reply = CtrlStatus.CTRL_OK <;>
        simp [BackendRpcClient.UpdateModelTable, hd, hr]
  · intro hd ht
    subst ht
    simp [BackendRpcClient.UpdateModelTable, hd]
  · intro reply hd ht
    subst ht
    by_cases hr : reply = CtrlStatus.CTRL_OK <;>
      simp [BackendRpcClient.UpdateModelTable, hd, hr]

/-- Witness for C6: a clean record is untouched, and a dirty record with
an `CTRL_OK` reply comes back clean with the table sent. -/
theorem updateModelTable_spec_witness :
    bkClean.UpdateModelTable (some CtrlStatus.CTRL_OK) 7 =
        (CtrlStatus.CTRL_OK, bkClean, none) ∧
      (bkDirty.UpdateModelTable (some CtrlStatus.CTRL_OK) 7).2.2 =
        some [cfgDirty] :=
  ⟨(updateModelTable_spec bkClean (some CtrlStatus.CTRL_OK) 7).1 rfl,
   (updateModelTable_spec bkDirty (some CtrlStatus.CTRL_OK) 7).2.1 rfl⟩

/-! ### C7 — RemoveTask -/

/-- C7 (amended): `RemoveTask` stages the task to postprocess, pushes it
into the shared postprocess queue and erases it from the processing map;
the erase and the stage transition are idempotent, but the push is not:
a second call with the same task leaves the processing map, the input
queue and the batch counter as after the first call while appending a
second copy of the task to the shared postprocess queue. -/
theorem removeTask_spec (m : ModelExecutor) (task : Task) :
    (m.RemoveTask task).processing_tasks =
        eraseTask m.processing_tasks task.tid ∧
    (m.RemoveTask task).task_queue =
        m.task_queue ++ [{ task with stage := TaskStage.kPostprocess }] ∧
    ((m.RemoveTask task).RemoveTask task).processing_tasks =
        (m.RemoveTask task).processing_tasks ∧
    ((m.RemoveTask task).RemoveTask task).input_queue =
        (m.RemoveTask task).input_queue ∧
    ((m.RemoveTask task).RemoveTask task).batch_id =
        (m.RemoveTask task).batch_id ∧
    ((m.RemoveTask task).RemoveTask task).task_queue =
        (m.RemoveTask task).task_queue ++
          [{ task with stage := TaskStage.kPostprocess }] := by
  refine ⟨rfl, rfl, ?_, rfl, rfl, ?_⟩
  · simpa [ModelExecutor.RemoveTask] using
      eraseTask_idem m.processing_tasks task.tid
  · simp [ModelExecutor.RemoveTask]

def taskC7 : Task :=
  { tid := 1, status := CtrlStatus.CTRL_OK, inputs := []
    outputs_filled := [], stage := TaskStage.kPreprocess }

def execC7 : ModelExecutor :=
  { plan_batch := 1, max_batch := 1, profile := none, input_queue := []
    processing_tasks := [taskC7], task_queue := [], batch_id := 0 }

/-- Counterexample for C7 as stated: `RemoveTask` is not idempotent — a
second call with the same task changes the shared postprocess queue
(the source pushes unconditionally, so the queue receives a duplicate
entry). -/
theorem removeTask_not_idempotent :
    ((execC7.RemoveTask taskC7).RemoveTask taskC7).task_queue ≠
      (execC7.RemoveTask taskC7).task_queue := by
  decide

/-! ### C10 — AddTask -/

/-- C10 (amended): `AddTask` inserts the task into the processing map
exactly when no task with the same id is present (`emplace`, whose
result the source ignores), and pushes every input of the task into the
input priority queue unconditionally — also in the duplicate case, where
no failure is reported and the map keeps the original task. -/
theorem addTask_spec (m : ModelExecutor) (task : Task) :
    ((¬ ∃ t ∈ m.processing_tasks, t.tid = task.tid) →
      (m.AddTask task).processing_tasks = m.processing_tasks ++ [task]) ∧
    ((∃ t ∈ m.processing_tasks, t.tid = task.tid) →
      (m.AddTask task).processing_tasks = m.processing_tasks) ∧
    List.Perm (m.AddTask task).input_queue
      (m.input_queue ++ task.inputs) ∧
    (m.AddTask task).task_queue = m.task_queue ∧
    (m.AddTask task).batch_id = m.batch_id := by
  refine ⟨?_, ?_, ?_, rfl, rfl⟩
  · intro hdup
    have hany : m.processing_tasks.any (fun t => t.tid == task.tid) = false := by
      simp only [List.any_eq_false, beq_iff_eq]
      intro t ht htid
      exact hdup ⟨t, ht, htid⟩
    simp [ModelExecutor.AddTask, hany]
  · intro hdup
    obtain ⟨t, ht, htid⟩ := hdup
    have hany : m.processing_tasks.any (fun t => t.tid == task.tid) = true := by
      simp only [List.any_eq_true, beq_iff_eq]
      exact ⟨t, ht, htid⟩
    simp [ModelExecutor.AddTask, hany]
  · simpa [ModelExecutor.AddTask] using
      foldl_orderedInsert_perm task.inputs m.input_queue

def taskC10 : Task :=
  { tid := 1, status := CtrlStatus.CTRL_OK
    inputs := [{ tid := 1, index := 0, deadline := 10 }]
    outputs_filled := [], stage := TaskStage.kPreprocess }

def taskC10dup : Task :=
  { tid := 1, status := CtrlStatus.CTRL_OK
    inputs := [{ tid := 1, index := 0, deadline := 25 }]
    outputs_filled := [], stage := TaskStage.kPreprocess }

def execC10 : ModelExecutor :=
  { plan_batch := 1, max_batch := 1, profile := none, input_queue := []
    processing_tasks := [taskC10], task_queue := [], batch_id := 0 }

/-- Counterexample for C10 as stated: with a duplicate task id the call
does not fail — nothing is reported and the operation is not a no-op:
the new task's input is still pushed into the input queue (now pointing
at the stale task kept in the map). -/
theorem addTask_duplicate_enqueues :
    (execC10.AddTask taskC10dup).input_queue.length =
        execC10.input_queue.length + 1 ∧
      (execC10.AddTask taskC10dup).processing_tasks = [taskC10] ∧
      taskC10dup ≠ taskC10 := by
  decide

def execFresh : ModelExecutor :=
  { plan_batch := 1, max_batch := 1, profile := none, input_queue := []
    processing_tasks := [], task_queue := [], batch_id := 0 }

/-- Witness for C10: on a fresh executor the task is inserted and its
single input enqueued. -/
theorem addTask_spec_witness :
    (execFresh.AddTask taskC10).processing_tasks = [] ++ [taskC10] ∧
      List.Perm (execFresh.AddTask taskC10).input_queue
        (execFresh.input_queue ++ taskC10.inputs) :=
  ⟨(addTask_spec execFresh taskC10).1 (by decide),
   (addTask_spec execFresh taskC10).2.2.1⟩

/-! ### C2 — saturating branch of PrepareLoadModel -/

/-- Evaluation of the saturating branch of `PrepareLoadModel`: profile
present, idle backend, workload zero or at least the max throughput. -/
theorem prepareLoadModel_saturating_eq (db : ProfileDB)
    (self : BackendRpcClient) (sess : ModelSession) (w : ℚ)
    (cfg : ModelInstanceConfig) (occ : ℚ) (p : ModelProfile)
    (hdb : db self.gpu_device (ModelSessionToProfileID sess) = some p)
    (hidle : self.exec_cycle_us = 0)
    (hsat : w = 0 ∨ ((p.GetMaxThroughput sess.latency_sla).2 : ℚ) ≤ w) :
    self.PrepareLoadModel db sess w cfg occ =
      ({ cfg with
          model_session := some sess
          batch := (p.GetMaxThroughput sess.latency_sla).1
          max_batch := (p.GetMaxThroughput sess.latency_sla).1
          forward_latency :=
            p.GetForwardLatency (p.GetMaxThroughput sess.latency_sla).1
          memory_usage := Nat.floor
            (p.GetForwardLatency (p.GetMaxThroughput sess.latency_sla).1)
          throughput := ((p.GetMaxThroughput sess.latency_sla).2 : ℚ)
          workload := ((p.GetMaxThroughput sess.latency_sla).2 : ℚ) },
       1) := by
  unfold BackendRpcClient.PrepareLoadModel
  dsimp only
  rw [hdb]
  dsimp only
  rw [if_pos hidle, if_pos hsat]

def profC2 : ModelProfile :=
  { GetForwardLatency := fun b => if b == 2 then 4000 else 3000
    GetMemoryUsage := fun _ => 17
    GetPreprocessLatency := 500
    GetPostprocessLatency := 500
    maxKnownBatch := 2 }

def dbC2 : ProfileDB := fun _ _ => some profC2

def bkIdle : BackendRpcClient :=
  { node_id := 2, gpu_device := "gpu0", gpu_available_memory := 1000000
    exec_cycle_us := 0, duty_cycle_us := 0, model_table_config := []
    dirty_model_table := false, last_time := 0 }

def sessC2 : ModelSession :=
  { framework := "tf", model_name := "m", version := 1, latency_sla := 10
    image_height := none, image_width := none }

/-- C2 (code bug): on an idle backend with a saturating workload the
planner adopts the max-throughput plan — all fields agree with the claim
except `memory_usage`, which the source sets to the forward latency
(`set_memory_usage(fwd_latency)`, backend_rpc_client.cpp line 69)
instead of `profile.memory_usage(max_batch)`.  Here
`GetMaxThroughput 10 = (2, 200)`, `forward(2) = 4000` and
`memory_usage(2) = 17`, yet the returned config carries 4000 as its
memory usage. -/
theorem prepareLoadModel_saturating_memory_bug :
    (bkIdle.PrepareLoadModel dbC2 sessC2 0 {} 0).1.batch = 2 ∧
    (bkIdle.PrepareLoadModel dbC2 sessC2 0 {} 0).1.max_batch = 2 ∧
    (bkIdle.PrepareLoadModel dbC2 sessC2 0 {} 0).1.forward_latency = 4000 ∧
    (bkIdle.PrepareLoadModel dbC2 sessC2 0 {} 0).1.throughput = 200 ∧
    (bkIdle.PrepareLoadModel dbC2 sessC2 0 {} 0).1.workload = 200 ∧
    (bkIdle.PrepareLoadModel dbC2 sessC2 0 {} 0).2 = 1 ∧
    profC2.GetMaxThroughput sessC2.latency_sla = (2, 200) ∧
    profC2.GetMemoryUsage 2 = 17 ∧
    (bkIdle.PrepareLoadModel dbC2 sessC2 0 {} 0).1.memory_usage = 4000 ∧
    (bkIdle.PrepareLoadModel dbC2 sessC2 0 {} 0).1.memory_usage ≠
      profC2.GetMemoryUsage 2 := by
  have hmt : profC2.GetMaxThroughput sessC2.latency_sla = (2, 200) := by
    unfold ModelProfile.GetMaxThroughput
    norm_num [profC2, sessC2, Nat.findGreatest]
  have hfwd : profC2.GetForwardLatency 2 = 4000 := by
    norm_num [profC2]
  have hmem : profC2.GetMemoryUsage 2 = 17 := rfl
  have h := prepareLoadModel_saturating_eq dbC2 bkIdle sessC2 0 {} 0 profC2
    rfl rfl (Or.inl rfl)
  rw [h, hmt]
  norm_num [hfwd, hmem]

/-! ### C8 — missing profile handling -/

def dbNone : ProfileDB := fun _ _ => none

def entryC8 : WorkloadEntry :=
  { framework := "tf", model_name := "m", version := 1, latency_sla := 10
    image_height := none, image_width := none, batch := 4 }

/-- C8 (code bug): `PrepareLoadModel` does treat a missing profile as
recoverable and returns `batch = 0`, but the static
`LoadModel(const YAML::Node&)` dereferences the profile pointer without
a null check (backend_rpc_client.cpp line 150), so a workload entry
whose profile is missing reads through a null pointer — made explicit
here as the `nullProfileDeref` error of the embedding. -/
theorem missingProfile_null_deref :
    (bkIdle.PrepareLoadModel dbNone sessC2 5 {} 0).1.batch = 0 ∧
      bkIdle.LoadModelFromWorkload dbNone entryC8 =
        Except.error LoadModelError.nullProfileDeref :=
  ⟨rfl, rfl⟩

/-! ### C3 — cycle invariants after LoadModel -/

/-- Evaluation of the static loader when the profile is found. -/
theorem loadModelFromWorkload_eq (db : ProfileDB)
    (self : BackendRpcClient) (e : WorkloadEntry) (p : ModelProfile)
    (hdb : db self.gpu_device
      (ModelSessionToProfileID e.toModelSession) = some p) :
    self.LoadModelFromWorkload db e = Except.ok
      { self with
          model_table_config := (self.model_table_config ++
            [({ model_session := some e.toModelSession
                batch := e.batch
                max_batch := e.batch
                memory_usage := p.GetMemoryUsage e.batch
                forward_latency := p.GetForwardLatency e.batch } :
              ModelInstanceConfig)]).map
            (fun cfg =>
              { cfg with
                  throughput := (cfg.batch : ℚ) * 1000000 /
                    (self.duty_cycle_us + p.GetForwardLatency e.batch)
                  workload := (cfg.batch : ℚ) * 1000000 /
                    (self.duty_cycle_us + p.GetForwardLatency e.batch) })
          exec_cycle_us := self.exec_cycle_us + p.GetForwardLatency e.batch
          duty_cycle_us := self.duty_cycle_us + p.GetForwardLatency e.batch
          dirty_model_table := true } := by
  unfold BackendRpcClient.LoadModelFromWorkload
  dsimp only
  rw [hdb]

/-- C3 (amended): after the dynamic `LoadModel` on an idle backend the
claim holds — `exec_cycle_us` equals the loaded config's forward latency
and `duty_cycle_us = sla_us − exec_cycle_us`.  After the static
`LoadModel` (workload-file entry) from an idle backend the loaded config
still accounts for the whole exec cycle
(`exec_cycle_us = forward_latency(batch)`), but the loader adds the
forward latency to both counters, so
`duty_cycle_us = exec_cycle_us = forward_latency(batch)` rather than
`sla_us − exec_cycle_us`. -/
theorem loadModel_cycle_invariants (self : BackendRpcClient)
    (config : ModelInstanceConfig) (db : ProfileDB) (e : WorkloadEntry)
    (p : ModelProfile) (hidle : self.exec_cycle_us = 0) :
    ((self.LoadModel config).exec_cycle_us = config.forward_latency ∧
     (self.LoadModel config).duty_cycle_us =
       (config.session_latency_sla : ℚ) * 1000 - config.forward_latency ∧
     (self.model_table_config = [] →
       (self.LoadModel config).model_table_config = [config])) ∧
    (db self.gpu_device
        (ModelSessionToProfileID e.toModelSession) = some p →
     self.duty_cycle_us = 0 →
     ∀ bk', self.LoadModelFromWorkload db e = Except.ok bk' →
       bk'.exec_cycle_us = p.GetForwardLatency e.batch ∧
       bk'.duty_cycle_us = bk'.exec_cycle_us ∧
       (self.model_table_config = [] →
         ∃ cfg, bk'.model_table_config = [cfg] ∧
           cfg.forward_latency = p.GetForwardLatency e.batch ∧
           cfg.batch = e.batch)) := by
  constructor
  · have hcond : ¬ (0 < self.exec_cycle_us) := by
      rw [hidle]
      exact lt_irrefl 0
    refine ⟨?_, ?_, ?_⟩
    · simp [BackendRpcClient.LoadModel, if_neg hcond]
    · simp [BackendRpcClient.LoadModel, if_neg hcond]
    · intro hmt
      simp [BackendRpcClient.LoadModel, if_neg hcond, hmt]
  · intro hdb hduty bk' hok
    rw [loadModelFromWorkload_eq db self e p hdb] at hok
    injection hok with hok
    subst hok
    refine ⟨by simp [hidle], by simp [hidle, hduty], ?_⟩
    intro hmt
    refine ⟨{ model_session := some e.toModelSession
              batch := e.batch
              max_batch := e.batch
              forward_latency := p.GetForwardLatency e.batch
              memory_usage := p.GetMemoryUsage e.batch
              throughput := (e.batch : ℚ) * 1000000 /
                (self.duty_cycle_us + p.GetForwardLatency e.batch)
              workload := (e.batch : ℚ) * 1000000 /
                (self.duty_cycle_us + p.GetForwardLatency e.batch) },
            by simp [hmt], rfl, rfl⟩

def profC3 : ModelProfile :=
  { GetForwardLatency := fun _ => 1000
    GetMemoryUsage := fun _ => 64
    GetPreprocessLatency := 100
    GetPostprocessLatency := 100
    maxKnownBatch := 8 }

def dbC3 : ProfileDB := fun _ _ => some profC3

def entryC3 : WorkloadEntry :=
  { framework := "tf", model_name := "m", version := 1, latency_sla := 100
    image_height := none, image_width := none, batch := 2 }

/-- Counterexample for C3 as stated: loading the workload entry (SLA
100 ms, `forward(2) = 1000` µs) on an idle backend through the static
loader yields `exec_cycle_us = duty_cycle_us = 1000`, and
`1000 ≠ sla_us − exec_cycle_us = 100000 − 1000`. -/
theorem loadModel_static_duty_cex :
    (bkIdle.LoadModelFromWorkload dbC3 entryC3).toOption.map
        (fun b => (b.exec_cycle_us, b.duty_cycle_us)) =
      some (1000, 1000) ∧
    (1000 : ℚ) ≠ (entryC3.latency_sla : ℚ) * 1000 - 1000 := by
  have h := loadModelFromWorkload_eq dbC3 bkIdle entryC3 profC3 rfl
  rw [h]
  constructor
  · norm_num [Except.toOption, bkIdle, profC3]
  · norm_num [entryC3]

def cfgC3 : ModelInstanceConfig :=
  { model_session := some sessC2, batch := 2, max_batch := 2
    forward_latency := 2000, memory_usage := 64 }

/-- Witness for C3: dynamically loading a config with forward latency
2000 µs and SLA 10 ms on an idle backend gives
`exec_cycle_us = 2000` and `duty_cycle_us = 10000 − 2000`. -/
theorem loadModel_cycle_invariants_witness :
    (bkIdle.LoadModel cfgC3).exec_cycle_us = 2000 ∧
      (bkIdle.LoadModel cfgC3).duty_cycle_us = 8000 := by
  have h :=
    (loadModel_cycle_invariants bkIdle cfgC3 dbC3 entryC3 profC3 rfl).1
  refine ⟨h.1.trans (by norm_num [cfgC3]), h.2.1.trans ?_⟩
  norm_num [cfgC3, sessC2, ModelInstanceConfig.session_latency_sla]

/-! ### C9 — batch ids and the empty batch -/

theorem fanoutOutputs_batch_id (items : List (Input × Nat)) :
    ∀ m : ModelExecutor,
      (ModelExecutor.fanoutOutputs m items).batch_id = m.batch_id := by
  induction items with
  | nil => intro m; rfl
  | cons it rest ih =>
    intro m
    obtain ⟨input, tid⟩ := it
    unfold ModelExecutor.fanoutOutputs
    cases h : lookupTask m.processing_tasks tid with
    | none => exact ih m
    | some task =>
      by_cases hc : (task.AddOutput input.index).2 = true <;>
        simp [hc, ModelExecutor.RemoveTask, ih]

theorem getBatchInput_batch_id (m : ModelExecutor) (now : ℤ) :
    ∀ r, m.GetBatchInput now = some r → r.1.batch_id = m.batch_id := by
  intro r hr
  unfold ModelExecutor.GetBatchInput at hr
  dsimp only at hr
  split at hr
  · exact absurd hr (by simp)
  · injection hr with hr
    subst hr
    rfl

/-- C9 (amended): batch ids are allocated by a fetch-and-increment, so
each `Execute` returns the executor's current batch id and leaves the
counter one higher; two consecutive successful `Execute`s therefore get
consecutive ids (strictly increasing, gap-free).  An `Execute` on an
empty input queue changes nothing but the batch counter.  (When the
batch is empty only because every popped input was filtered out, the
filtering side effects — popped inputs, virtual outputs, removed tasks —
do remain; see the counterexample.) -/
theorem execute_batch_id_spec (m : ModelExecutor) (now now' : ℤ) :
    (∀ r, m.Execute now = some r →
      r.2 = m.batch_id ∧ r.1.batch_id = m.batch_id + 1) ∧
    (∀ r r', m.Execute now = some r → r.1.Execute now' = some r' →
      r'.2 = r.2 + 1) ∧
    (m.input_queue = [] →
      m.Execute now =
        some ({ m with batch_id := m.batch_id + 1 }, m.batch_id)) := by
  have key : ∀ (m : ModelExecutor) (now : ℤ) r, m.Execute now = some r →
      r.2 = m.batch_id ∧ r.1.batch_id = m.batch_id + 1 := by
    intro m now r hr
    unfold ModelExecutor.Execute at hr
    dsimp only at hr
    cases hgb : ({ m with batch_id := m.batch_id + 1 } :
        ModelExecutor).GetBatchInput now with
    | none => rw [hgb] at hr; exact absurd hr (by simp)
    | some q =>
      rw [hgb] at hr
      obtain ⟨m2, items, virt, calls⟩ := q
      have hm2 : m2.batch_id = m.batch_id + 1 :=
        getBatchInput_batch_id _ now _ hgb
      by_cases hlen : items.length = 0
      · simp only [hlen, if_pos rfl] at hr
        injection hr with hr
        subst hr
        exact ⟨rfl, hm2⟩
      · simp only [if_neg hlen] at hr
        injection hr with hr
        subst hr
        exact ⟨rfl, (fanoutOutputs_batch_id items m2).trans hm2⟩
  refine ⟨key m now, ?_, ?_⟩
  · intro r r' hr hr'
    have h1 := key m now r hr
    have h2 := key r.1 now' r' hr'
    rw [h2.1, h1.2, h1.1]
  · intro hq
    cases m with
    | mk plan_batch max_batch profile input_queue processing_tasks
        task_queue batch_id =>
      dsimp only at hq
      subst hq
      rfl

/-- Witness for C9: an `Execute` on a fresh executor with an empty queue
only bumps the batch counter and returns id 0. -/
theorem execute_batch_id_spec_witness :
    execFresh.Execute 0 =
      some ({ execFresh with batch_id := execFresh.batch_id + 1 },
        execFresh.batch_id) :=
  (execute_batch_id_spec execFresh 0 0).2.2 rfl

def inputC9 : Input := { tid := 1, index := 0, deadline := 100 }

def taskC9 : Task :=
  { tid := 1, status := CtrlStatus.CTRL_MODEL_NOT_FOUND
    inputs := [inputC9], outputs_filled := []
    stage := TaskStage.kPreprocess }

def execC9 : ModelExecutor :=
  { plan_batch := 1, max_batch := 1, profile := none
    input_queue := [inputC9], processing_tasks := [taskC9]
    task_queue := [], batch_id := 0 }

/-- Counterexample for C9 as stated: an `Execute` whose batch is empty
after filtering is not free of side effects beyond the id allocation —
here the single queued input (owned by a failed task) is popped, receives
a virtual output, and its task is removed to the shared postprocess
queue, even though the formed batch is empty and no forward pass runs. -/
theorem execute_empty_filter_side_effects :
    (execC9.Execute 0).map
        (fun r => (r.1.input_queue.length, r.1.processing_tasks.length,
          r.1.task_queue.length, r.2)) = some (0, 0, 1, 0) ∧
      (({ execC9 with batch_id := 1 } : ModelExecutor).GetBatchInput 0).map
        (fun r => r.2.1.length) = some 0 ∧
      execC9.input_queue.length = 1 ∧
      execC9.processing_tasks.length = 1 ∧
      execC9.task_queue.length = 0 := by
  decide

/-! ### C5 — forward-latency call range -/

/-- C5 (amended): every call `GetBatchInput` makes to `GetForwardLatency`
passes `batch_size = min(input_queue.size, model.batch)`; when the input
queue is non-empty and the planned batch lies in `[1, max_known_batch]`,
that argument is within `[1, max_known_batch]`.  With an empty queue the
source still makes the call — with batch 0, outside the profile's
domain; see the counterexample. -/
theorem getBatchInput_forward_calls_in_range (m : ModelExecutor)
    (p : ModelProfile) (now : ℤ) (hp : m.profile = some p)
    (hq : m.input_queue ≠ []) (hb1 : 1 ≤ m.plan_batch)
    (hb2 : m.plan_batch ≤ p.maxKnownBatch) :
    ∀ r, m.GetBatchInput now = some r →
      ∀ a ∈ r.2.2.2, 1 ≤ a ∧ a ≤ p.maxKnownBatch := by
  intro r hr a ha
  unfold ModelExecutor.GetBatchInput at hr
  rw [hp] at hr
  dsimp only at hr
  split at hr
  · exact absurd hr (by simp)
  · injection hr with hr
    subst hr
    simp only [List.mem_singleton] at ha
    subst ha
    constructor
    · exact le_min (List.length_pos.mpr hq) hb1
    · exact le_trans (min_le_right _ _) hb2

def profC5 : ModelProfile :=
  { GetForwardLatency := fun _ => 100
    GetMemoryUsage := fun _ => 0
    GetPreprocessLatency := 0
    GetPostprocessLatency := 0
    maxKnownBatch := 1 }

def execC5 : ModelExecutor :=
  { plan_batch := 1, max_batch := 1, profile := some profC5
    input_queue := [], processing_tasks := [], task_queue := []
    batch_id := 0 }

/-- Counterexample for C5 as stated: with a present profile and an empty
input queue, `GetBatchInput` (reached from every `Execute`) calls
`GetForwardLatency` with `batch_size = min(0, model.batch) = 0`, which
is outside `[1, max_known_batch]`. -/
theorem getBatchInput_forward_call_zero :
    (execC5.GetBatchInput 0).map (fun r => r.2.2.2) = some [0] ∧
      ¬ (1 ≤ 0 ∧ 0 ≤ profC5.maxKnownBatch) := by
  exact ⟨rfl, by decide⟩

def profC5w : ModelProfile :=
  { GetForwardLatency := fun _ => 10
    GetMemoryUsage := fun _ => 0
    GetPreprocessLatency := 0
    GetPostprocessLatency := 0
    maxKnownBatch := 1 }

def inputC5 : Input := { tid := 1, index := 0, deadline := 1000 }

def taskC5 : Task :=
  { tid := 1, status := CtrlStatus.CTRL_OK, inputs := [inputC5]
    outputs_filled := [], stage := TaskStage.kPreprocess }

def execC5w : ModelExecutor :=
  { plan_batch := 1, max_batch := 1, profile := some profC5w
    input_queue := [inputC5], processing_tasks := [taskC5]
    task_queue := [], batch_id := 0 }

/-- Witness for C5: on a non-empty queue with planned batch 1 the single
recorded call argument 1 lies within the profile's range. -/
theorem getBatchInput_forward_calls_in_range_witness :
    1 ≤ 1 ∧ 1 ≤ profC5w.maxKnownBatch :=
  getBatchInput_forward_calls_in_range execC5w profC5w 0 rfl
    (by decide) (by decide) (by decide)
    ({ execC5w with input_queue := [] }, [(inputC5, 1)], [], [1]) rfl
    1 (by decide)

/-! ### C4 — map lemmas for the batch-formation loop -/

theorem lookupTask_mem {ts : List Task} {tid : Nat} {t : Task}
    (h : lookupTask ts tid = some t) : t ∈ ts ∧ t.tid = tid := by
  unfold lookupTask at h
  refine ⟨List.mem_of_find?_eq_some h, ?_⟩
  have h1 := List.find?_some h
  simpa using h1

theorem mem_updateTask {ts : List Task} {u t' : Task}
    (h : t' ∈ updateTask ts u) : t' = u ∨ t' ∈ ts := by
  unfold updateTask at h
  obtain ⟨t, ht, heq⟩ := List.mem_map.mp h
  by_cases hc : t.tid == u.tid
  · rw [if_pos hc] at heq
    exact Or.inl heq.symm
  · rw [if_neg hc] at heq
    exact Or.inr (heq ▸ ht)

theorem updateTask_mem_self {ts : List Task} {u : Task}
    (h : ∃ t ∈ ts, t.tid = u.tid) : u ∈ updateTask ts u := by
  obtain ⟨t, ht, htid⟩ := h
  unfold updateTask
  exact List.mem_map.mpr ⟨t, ht, by simp [htid]⟩

theorem mem_updateTask_of_ne {ts : List Task} {u t : Task}
    (ht : t ∈ ts) (hne : t.tid ≠ u.tid) : t ∈ updateTask ts u := by
  unfold updateTask
  refine List.mem_map.mpr ⟨t, ht, ?_⟩
  rw [if_neg (by simpa using hne)]

theorem mem_eraseTask {ts : List Task} {tid : Nat} {t : Task}
    (h : t ∈ eraseTask ts tid) : t ∈ ts ∧ t.tid ≠ tid := by
  unfold eraseTask at h
  have := List.mem_filter.mp h
  simpa using this

theorem mem_eraseTask_of {ts : List Task} {tid : Nat} {t : Task}
    (ht : t ∈ ts) (hne : t.tid ≠ tid) : t ∈ eraseTask ts tid := by
  unfold eraseTask
  exact List.mem_filter.mpr ⟨ht, by simpa using hne⟩

theorem updateTask_map_tid (ts : List Task) (u : Task) :
    (updateTask ts u).map Task.tid = ts.map Task.tid := by
  induction ts with
  | nil => rfl
  | cons t ts ih =>
    unfold updateTask at ih ⊢
    by_cases hc : t.tid == u.tid
    · simp only [List.map_cons, if_pos hc, ih]
      have : u.tid = t.tid := (Nat.beq_eq_true_eq _ _ ▸ hc : t.tid = u.tid).symm
      rw [this]
    · simp only [List.map_cons, if_neg hc, ih]

theorem nodup_updateTask {ts : List Task} (u : Task)
    (h : (ts.map Task.tid).Nodup) :
    ((updateTask ts u).map Task.tid).Nodup := by
  rw [updateTask_map_tid]
  exact h

theorem nodup_eraseTask {ts : List Task} (tid : Nat)
    (h : (ts.map Task.tid).Nodup) :
    ((eraseTask ts tid).map Task.tid).Nodup := by
  exact h.sublist ((List.filter_sublist ts).map Task.tid)

theorem eq_of_mem_nodup_tid {ts : List Task}
    (hnd : (ts.map Task.tid).Nodup) {t₁ t₂ : Task}
    (h₁ : t₁ ∈ ts) (h₂ : t₂ ∈ ts) (h : t₁.tid = t₂.tid) : t₁ = t₂ :=
  List.inj_on_of_nodup_map hnd h₁ h₂ h

/-- A (real or virtual) output for input `i` is recorded: some task with
`i`'s owner id — in the processing map or in the postprocess queue —
carries an output at `i`'s index. -/
def recordedOutput (tasks postq : List Task) (i : Input) : Prop :=
  ∃ t, t.tid = i.tid ∧ i.index ∈ t.outputs_filled ∧
    (t ∈ tasks ∨ t ∈ postq)

theorem recorded_persist_update {tasks postq : List Task} {task u : Task}
    (hnd : (tasks.map Task.tid).Nodup) (htm : task ∈ tasks)
    (hutid : u.tid = task.tid)
    (hfill : task.outputs_filled ⊆ u.outputs_filled) :
    ∀ i, recordedOutput tasks postq i →
      recordedOutput (updateTask tasks u) postq i := by
  rintro i ⟨t, htid, hidx, hmem | hmem⟩
  · by_cases hne : t.tid = u.tid
    · have ht : t = task :=
        eq_of_mem_nodup_tid hnd hmem htm (hne.trans hutid)
      subst ht
      exact ⟨u, hutid.trans htid, hfill hidx,
        Or.inl (updateTask_mem_self ⟨t, hmem, hutid.symm⟩)⟩
    · exact ⟨t, htid, hidx, Or.inl (mem_updateTask_of_ne hmem hne)⟩
  · exact ⟨t, htid, hidx, Or.inr hmem⟩

theorem recorded_persist_erase_push {tasks postq : List Task}
    {u w : Task} (hnd : (tasks.map Task.tid).Nodup) (hu : u ∈ tasks)
    (hw : w.tid = u.tid) (hwf : u.outputs_filled ⊆ w.outputs_filled) :
    ∀ i, recordedOutput tasks postq i →
      recordedOutput (eraseTask tasks u.tid) (postq ++ [w]) i := by
  rintro i ⟨t, htid, hidx, hmem | hmem⟩
  · by_cases hne : t.tid = u.tid
    · have ht : t = u := eq_of_mem_nodup_tid hnd hmem hu hne
      subst ht
      exact ⟨w, hw.trans htid, hwf hidx,
        Or.inr (List.mem_append_right _ (List.mem_singleton_self w))⟩
    · exact ⟨t, htid, hidx, Or.inl (mem_eraseTask_of hmem hne)⟩
  · exact ⟨t, htid, hidx, Or.inr (List.mem_append_left _ hmem)⟩

/-- Soundness of the batch-formation loop: new batch items passed the
deadline/status filter with their owner OK, every queued input is either
still queued, batched or virtualized, virtualized inputs were dropped
for the claimed reason and have their index recorded on their task (in
the map or the postprocess queue), recorded outputs persist, and every
task newly pushed to the postprocess queue is complete and staged. -/
theorem getBatchLoop_sound (prof : Option ModelProfile) (finish : ℤ)
    (bs : Nat) :
    ∀ (queue : List Input) (tasks postq : List Task)
      (items : List (Input × Nat)) (virt : List Input) (res : LoopState),
      (tasks.map Task.tid).Nodup →
      getBatchLoop prof finish bs queue tasks postq items virt =
        some res →
      (∀ x ∈ res.batch_items, x ∈ items ∨
        ((∃ t ∈ tasks, t.tid = x.2 ∧ t.status = CtrlStatus.CTRL_OK) ∧
         ¬ (prof.isSome = true ∧ x.1.deadline < finish))) ∧
      (∀ i ∈ queue, i ∈ res.input_queue ∨
        (∃ tid, (i, tid) ∈ res.batch_items) ∨ i ∈ res.virtualized) ∧
      (∀ i ∈ res.virtualized, i ∈ virt ∨
        ∃ t ∈ tasks, t.tid = i.tid ∧
          (t.status ≠ CtrlStatus.CTRL_OK ∨
            (prof.isSome = true ∧ i.deadline < finish))) ∧
      (∀ i ∈ res.virtualized, i ∈ virt ∨
        recordedOutput res.processing_tasks res.task_queue i) ∧
      (∀ i, recordedOutput tasks postq i →
        recordedOutput res.processing_tasks res.task_queue i) ∧
      (∀ t ∈ res.task_queue, t ∈ postq ∨
        (t.stage = TaskStage.kPostprocess ∧
          t.outputs_filled.length = t.inputs.length)) ∧
      (∀ x ∈ items, x ∈ res.batch_items) ∧
      (∀ i ∈ virt, i ∈ res.virtualized) := by
  intro queue
  induction queue with
  | nil =>
    intro tasks postq items virt res hnd h
    rw [getBatchLoop] at h
    injection h with h
    subst h
    exact ⟨fun x hx => Or.inl hx, fun i hi => absurd hi (by simp),
      fun i hi => Or.inl hi, fun i hi => Or.inl hi, fun i hi => hi,
      fun t ht => Or.inl ht, fun x hx => hx, fun i hi => hi⟩
  | cons input rest ih =>
    intro tasks postq items virt res hnd h
    rw [getBatchLoop] at h
    by_cases hlen : items.length < bs
    · rw [if_pos hlen] at h
      cases hlk : lookupTask tasks input.tid with
      | none =>
        rw [hlk] at h
        exact absurd h (by simp)
      | some task =>
        rw [hlk] at h
        obtain ⟨htm, htt⟩ := lookupTask_mem hlk
        dsimp only at h
        by_cases hcond : task.status ≠ CtrlStatus.CTRL_OK ∨
            (prof.isSome = true ∧ input.deadline < finish)
        · rw [if_pos hcond] at h
          have hutid : (task.AddVirtualOutput input.index).1.tid =
              task.tid := rfl
          have hust : (task.AddVirtualOutput input.index).1.status =
              task.status := rfl
          have hfill : task.outputs_filled ⊆
              (task.AddVirtualOutput input.index).1.outputs_filled :=
            List.subset_append_left _ _
          have hidxmem : input.index ∈
              (task.AddVirtualOutput input.index).1.outputs_filled :=
            List.mem_append_right _ (List.mem_singleton_self _)
          have hndu : ((updateTask tasks
              (task.AddVirtualOutput input.index).1).map Task.tid).Nodup :=
            nodup_updateTask _ hnd
          have humem : (task.AddVirtualOutput input.index).1 ∈
              updateTask tasks (task.AddVirtualOutput input.index).1 :=
            updateTask_mem_self ⟨task, htm, hutid.symm⟩
          by_cases hcomp : (task.AddVirtualOutput input.index).2 = true
          · rw [if_pos hcomp] at h
            have hnd2 : ((eraseTask (updateTask tasks
                (task.AddVirtualOutput input.index).1) input.tid).map
                  Task.tid).Nodup :=
              nodup_eraseTask _ hndu
            obtain ⟨A, B2, C, D, E, F, G1, G2⟩ :=
              ih _ _ _ _ _ hnd2 h
            have hstat : ∀ t', t' ∈ eraseTask (updateTask tasks
                (task.AddVirtualOutput input.index).1) input.tid →
                ∃ t₀ ∈ tasks, t₀.tid = t'.tid ∧
                  t₀.status = t'.status := by
              intro t' ht'
              rcases mem_updateTask (mem_eraseTask ht').1 with he | hm
              · subst he
                exact ⟨task, htm, hutid.symm, hust.symm⟩
              · exact ⟨t', hm, rfl, rfl⟩
            have hpersist : ∀ i, recordedOutput tasks postq i →
                recordedOutput (eraseTask (updateTask tasks
                  (task.AddVirtualOutput input.index).1) input.tid)
                  (postq ++ [{ (task.AddVirtualOutput input.index).1 with
                    stage := TaskStage.kPostprocess }]) i := by
              intro i hi
              have h1 := recorded_persist_update hnd htm hutid hfill i hi
              have h2 := @recorded_persist_erase_push
                (updateTask tasks (task.AddVirtualOutput input.index).1)
                postq (task.AddVirtualOutput input.index).1
                { (task.AddVirtualOutput input.index).1 with
                  stage := TaskStage.kPostprocess }
                hndu humem rfl (fun a ha => ha) i h1
              rw [hutid, htt] at h2
              exact h2
            refine ⟨?_, ?_, ?_, ?_, ?_, ?_, ?_, ?_⟩
            · intro x hx
              rcases A x hx with hx' | ⟨⟨t, ht, htid', hst⟩, hc⟩
              · exact Or.inl hx'
              · obtain ⟨t₀, ht₀, htid₀, hst₀⟩ := hstat t ht
                exact Or.inr ⟨⟨t₀, ht₀, htid₀.trans htid',
                  hst₀.trans hst⟩, hc⟩
            · intro i hi
              rcases List.mem_cons.mp hi with he | hi'
              · subst he
                exact Or.inr (Or.inr (G2 _ (List.mem_append_right _
                  (List.mem_singleton_self _))))
              · exact B2 i hi'
            · intro i hi
              rcases C i hi with hv | ⟨t, ht, htid', hc⟩
              · rcases List.mem_append.mp hv with hv' | hv'
                · exact Or.inl hv'
                · rw [List.mem_singleton] at hv'
                  subst hv'
                  exact Or.inr ⟨task, htm, htt, hcond⟩
              · obtain ⟨t₀, ht₀, htid₀, hst₀⟩ := hstat t ht
                rcases hc with hc | hc
                · exact Or.inr ⟨t₀, ht₀, htid₀.trans htid',
                    Or.inl (hst₀ ▸ hc)⟩
                · exact Or.inr ⟨t₀, ht₀, htid₀.trans htid', Or.inr hc⟩
            · intro i hi
              rcases D i hi with hv | hr
              · rcases List.mem_append.mp hv with hv' | hv'
                · exact Or.inl hv'
                · rw [List.mem_singleton] at hv'
                  subst hv'
                  refine Or.inr (E _ ?_)
                  exact ⟨{ (task.AddVirtualOutput i.index).1 with
                      stage := TaskStage.kPostprocess },
                    hutid.trans htt, hidxmem,
                    Or.inr (List.mem_append_right _
                      (List.mem_singleton_self _))⟩
              · exact Or.inr hr
            · intro i hi
              exact E i (hpersist i hi)
            · intro t ht
              rcases F t ht with hpq | hok
              · rcases List.mem_append.mp hpq with hpq' | hpq'
                · exact Or.inl hpq'
                · rw [List.mem_singleton] at hpq'
                  subst hpq'
                  refine Or.inr ⟨rfl, ?_⟩
                  simpa [Task.AddVirtualOutput] using hcomp
              · exact Or.inr hok
            · exact G1
            · intro i hi
              exact G2 _ (List.mem_append_left _ hi)
          · rw [if_neg hcomp] at h
            obtain ⟨A, B2, C, D, E, F, G1, G2⟩ :=
              ih _ _ _ _ _ hndu h
            have hstat : ∀ t', t' ∈ updateTask tasks
                (task.AddVirtualOutput input.index).1 →
                ∃ t₀ ∈ tasks, t₀.tid = t'.tid ∧
                  t₀.status = t'.status := by
              intro t' ht'
              rcases mem_updateTask ht' with he | hm
              · subst he
                exact ⟨task, htm, hutid.symm, hust.symm⟩
              · exact ⟨t', hm, rfl, rfl⟩
            refine ⟨?_, ?_, ?_, ?_, ?_, F, G1, ?_⟩
            · intro x hx
              rcases A x hx with hx' | ⟨⟨t, ht, htid', hst⟩, hc⟩
              · exact Or.inl hx'
              · obtain ⟨t₀, ht₀, htid₀, hst₀⟩ := hstat t ht
                exact Or.inr ⟨⟨t₀, ht₀, htid₀.trans htid',
                  hst₀.trans hst⟩, hc⟩
            · intro i hi
              rcases List.mem_cons.mp hi with he | hi'
              · subst he
                exact Or.inr (Or.inr (G2 _ (List.mem_append_right _
                  (List.mem_singleton_self _))))
              · exact B2 i hi'
            · intro i hi
              rcases C i hi with hv | ⟨t, ht, htid', hc⟩
              · rcases List.mem_append.mp hv with hv' | hv'
                · exact Or.inl hv'
                · rw [List.mem_singleton] at hv'
                  subst hv'
                  exact Or.inr ⟨task, htm, htt, hcond⟩
              · obtain ⟨t₀, ht₀, htid₀, hst₀⟩ := hstat t ht
                rcases hc with hc | hc
                · exact Or.inr ⟨t₀, ht₀, htid₀.trans htid',
                    Or.inl (hst₀ ▸ hc)⟩
                · exact Or.inr ⟨t₀, ht₀, htid₀.trans htid', Or.inr hc⟩
            · intro i hi
              rcases D i hi with hv | hr
              · rcases List.mem_append.mp hv with hv' | hv'
                · exact Or.inl hv'
                · rw [List.mem_singleton] at hv'
                  subst hv'
                  refine Or.inr (E _ ?_)
                  exact ⟨(task.AddVirtualOutput i.index).1,
                    hutid.trans htt, hidxmem, Or.inl humem⟩
              · exact Or.inr hr
            · intro i hi
              exact E i (recorded_persist_update hnd htm hutid hfill i hi)
            · intro i hi
              exact G2 _ (List.mem_append_left _ hi)
        · rw [if_neg hcond] at h
          push_neg at hcond
          obtain ⟨hok, hdl⟩ := hcond
          have hndl : ¬ (prof.isSome = true ∧ input.deadline < finish) :=
            fun hc => absurd (hdl hc.1) (not_le.mpr hc.2)
          obtain ⟨A, B2, C, D, E, F, G1, G2⟩ := ih _ _ _ _ _ hnd h
          refine ⟨?_, ?_, C, D, E, F, ?_, G2⟩
          · intro x hx
            rcases A x hx with hx' | hx'
            · rcases List.mem_append.mp hx' with hx'' | hx''
              · exact Or.inl hx''
              · rw [List.mem_singleton] at hx''
                subst hx''
                exact Or.inr ⟨⟨task, htm, rfl, hok⟩, hndl⟩
            · exact Or.inr hx'
          · intro i hi
            rcases List.mem_cons.mp hi with he | hi'
            · subst he
              exact Or.inr (Or.inl ⟨task.tid, G1 _
                (List.mem_append_right _ (List.mem_singleton_self _))⟩)
            · exact B2 i hi'
          · intro x hx
            exact G1 _ (List.mem_append_left _ hx)
    · rw [if_neg hlen] at h
      injection h with h
      subst h
      exact ⟨fun x hx => Or.inl hx, fun i hi => Or.inl hi,
        fun i hi => Or.inl hi, fun i hi => Or.inl hi, fun i hi => hi,
        fun t ht => Or.inl ht, fun x hx => hx, fun i hi => hi⟩

/-- C4: during batch formation, every popped input whose owning task is
not OK — or, when a profile is present, whose deadline precedes
`finish = now + forward_latency(batch_size)` — receives a virtual output
recorded at the input's index (and tasks pushed to postprocess by the
loop are exactly the completed ones, staged); every other popped input
is appended to the batch.  Consequently every batched input's owner was
OK and, when a profile is present, its deadline is at least
`now + forward_latency(batch_size)` (with
`batch_size = min(queue.length, model.batch)`; the µs-clock embedding
adds `int(latency)`, so the rational form is stated under integrality of
the table value). -/
theorem getBatchInput_deadline_filter (m : ModelExecutor) (now : ℤ)
    (hnd : (m.processing_tasks.map Task.tid).Nodup) :
    ∀ r, m.GetBatchInput now = some r →
      (∀ x ∈ r.2.1, ∃ t ∈ m.processing_tasks,
        t.tid = x.2 ∧ t.status = CtrlStatus.CTRL_OK) ∧
      (∀ p, m.profile = some p → ∀ x ∈ r.2.1,
        now + Int.floor (p.GetForwardLatency
          (min m.input_queue.length m.plan_batch)) ≤ x.1.deadline) ∧
      (∀ p, m.profile = some p →
        ((Int.floor (p.GetForwardLatency
            (min m.input_queue.length m.plan_batch)) : ℚ) =
          p.GetForwardLatency (min m.input_queue.length m.plan_batch)) →
        ∀ x ∈ r.2.1, (now : ℚ) + p.GetForwardLatency
          (min m.input_queue.length m.plan_batch) ≤
          (x.1.deadline : ℚ)) ∧
      (∀ i ∈ m.input_queue, i ∈ r.1.input_queue ∨
        (∃ tid, (i, tid) ∈ r.2.1) ∨ i ∈ r.2.2.1) ∧
      (∀ i ∈ r.2.2.1, ∃ t ∈ m.processing_tasks, t.tid = i.tid ∧
        (t.status ≠ CtrlStatus.CTRL_OK ∨ (∃ p, m.profile = some p ∧
          i.deadline < now + Int.floor (p.GetForwardLatency
            (min m.input_queue.length m.plan_batch))))) ∧
      (∀ i ∈ r.2.2.1,
        recordedOutput r.1.processing_tasks r.1.task_queue i) ∧
      (∀ t ∈ r.1.task_queue, t ∈ m.task_queue ∨
        (t.stage = TaskStage.kPostprocess ∧
          t.outputs_filled.length = t.inputs.length)) := by
  intro r hr
  unfold ModelExecutor.GetBatchInput at hr
  dsimp only at hr
  split at hr
  · exact absurd hr (by simp)
  case _ s hloop =>
    injection hr with hr
    subst hr
    dsimp only
    obtain ⟨A, B2, C, D, E, F, _G1, _G2⟩ :=
      getBatchLoop_sound m.profile _ _ m.input_queue m.processing_tasks
        m.task_queue [] [] s hnd hloop
    have hitems : ∀ x ∈ s.batch_items,
        (∃ t ∈ m.processing_tasks, t.tid = x.2 ∧
          t.status = CtrlStatus.CTRL_OK) ∧
        ¬ (m.profile.isSome = true ∧ x.1.deadline <
          (match m.profile with
            | some p => now + Int.floor (p.GetForwardLatency
                (min m.input_queue.length m.plan_batch))
            | none => 0)) := by
      intro x hx
      exact (A x hx).resolve_left (List.not_mem_nil x)
    refine ⟨?_, ?_, ?_, B2, ?_, ?_, F⟩
    · intro x hx
      exact (hitems x hx).1
    · intro p hp x hx
      have h2 := (hitems x hx).2
      rw [hp] at h2
      simp only [Option.isSome_some, true_and, not_lt] at h2
      exact h2
    · intro p hp hint x hx
      have h2 := (hitems x hx).2
      rw [hp] at h2
      simp only [Option.isSome_some, true_and, not_lt] at h2
      have : ((now + Int.floor (p.GetForwardLatency
          (min m.input_queue.length m.plan_batch)) : ℤ) : ℚ) ≤
          ((x.1.deadline : ℤ) : ℚ) := by
        exact_mod_cast h2
      rw [Int.cast_add] at this
      rw [hint] at this
      exact this
    · intro i hi
      obtain ⟨t, ht, htid, hreason⟩ :=
        (C i hi).resolve_left (List.not_mem_nil i)
      refine ⟨t, ht, htid, ?_⟩
      rcases hreason with hs | ⟨hsome, hdl⟩
      · exact Or.inl hs
      · cases hp : m.profile with
        | none => rw [hp] at hsome; exact absurd hsome (by simp)
        | some p =>
          rw [hp] at hdl
          exact Or.inr ⟨p, rfl, hdl⟩
    · intro i hi
      exact (D i hi).resolve_left (List.not_mem_nil i)

def profC4 : ModelProfile :=
  { GetForwardLatency := fun _ => 10
    GetMemoryUsage := fun _ => 0
    GetPreprocessLatency := 0
    GetPostprocessLatency := 0
    maxKnownBatch := 4 }

def inputC4a : Input := { tid := 1, index := 0, deadline := 5 }

def inputC4b : Input := { tid := 2, index := 0, deadline := 1000 }

def taskC4a : Task :=
  { tid := 1, status := CtrlStatus.CTRL_OK, inputs := [inputC4a]
    outputs_filled := [], stage := TaskStage.kPreprocess }

def taskC4b : Task :=
  { tid := 2, status := CtrlStatus.CTRL_OK, inputs := [inputC4b]
    outputs_filled := [], stage := TaskStage.kPreprocess }

def execC4 : ModelExecutor :=
  { plan_batch := 2, max_batch := 4, profile := some profC4
    input_queue := [inputC4a, inputC4b]
    processing_tasks := [taskC4a, taskC4b]
    task_queue := [], batch_id := 0 }

/-- Witness for C4 (spec scenario 3, reduced): with `forward ≡ 10` µs
and deadlines 5 and 1000, the early input is virtualized and its
one-input task removed, the late input is batched; the theorem applied
at this state yields the deadline bound for the batched input. -/
def taskC4rem : Task :=
  { tid := 1, status := CtrlStatus.CTRL_OK, inputs := [inputC4a]
    outputs_filled := [0], stage := TaskStage.kPostprocess }

theorem getBatchInput_deadline_filter_witness :
    (0 : ℤ) + Int.floor (profC4.GetForwardLatency
        (min execC4.input_queue.length execC4.plan_batch)) ≤
      inputC4b.deadline :=
  (getBatchInput_deadline_filter execC4 0 (by decide)
      ({ execC4 with
          input_queue := []
          processing_tasks := [taskC4b]
          task_queue := [taskC4rem] },
        [(inputC4b, 2)], [inputC4a], [2]) rfl).2.1
    profC4 rfl (inputC4b, 2) (by decide)

/-! ### C1 — residue branch of PrepareLoadModel -/

/-- What the residue `for` loop computes: starting at `s ≥ 1`, the
result `r` is such that every batch in `[s, r]` satisfies the
constraint, `r + 1` (when it is still `≤ max_batch` and `≥ s`) violates
it, and `s - 1 ≤ r ≤ max_batch` (for `s ≤ max_batch + 1`). -/
theorem residueBatchLoop_spec (p : ModelProfile) (sla w : ℚ) (mb : Nat) :
    ∀ s, 1 ≤ s →
      (∀ b, s ≤ b → b ≤ residueBatchLoop p sla w mb s →
        residueFits p sla w b) ∧
      (residueBatchLoop p sla w mb s + 1 ≤ mb →
        s ≤ residueBatchLoop p sla w mb s + 1 →
        ¬ residueFits p sla w (residueBatchLoop p sla w mb s + 1)) ∧
      s - 1 ≤ residueBatchLoop p sla w mb s ∧
      (s ≤ mb + 1 → residueBatchLoop p sla w mb s ≤ mb) := by
  intro s
  generalize hfuel : mb + 1 - s = fuel
  induction fuel generalizing s with
  | zero =>
    intro hs1
    have hns : ¬ s ≤ mb := by omega
    rw [residueBatchLoop]
    rw [dif_neg hns]
    refine ⟨?_, ?_, le_refl _, ?_⟩
    · intro b hb1 hb2
      omega
    · intro hle _hge
      omega
    · intro hle
      omega
  | succ n ih =>
    intro hs1
    have hsmb : s ≤ mb := by omega
    rw [residueBatchLoop]
    rw [dif_pos hsmb]
    dsimp only
    by_cases hc : sla <
        ((s : ℚ) - 1) * 1000000 / w + p.GetForwardLatency s +
          (p.GetPreprocessLatency : ℚ) + (p.GetPostprocessLatency : ℚ)
    · rw [if_pos hc]
      have hnf : ¬ residueFits p sla w s := by
        unfold residueFits
        exact not_le.mpr hc
      refine ⟨?_, ?_, le_refl _, ?_⟩
      · intro b hb1 hb2
        omega
      · intro _hle hge
        have hb : s - 1 + 1 = s := by omega
        rw [hb]
        exact hnf
      · intro _
        omega
    · rw [if_neg hc]
      have hf : residueFits p sla w s := by
        unfold residueFits
        exact not_lt.mp hc
      have hfuel' : mb + 1 - (s + 1) = n := by omega
      obtain ⟨A, B, Cl, Cr⟩ := ih (s + 1) hfuel' (by omega)
      refine ⟨?_, ?_, ?_, ?_⟩
      · intro b hb1 hb2
        rcases eq_or_lt_of_le hb1 with hbe | hbl
        · rw [← hbe]
          exact hf
        · exact A b (by omega) hb2
      · intro hle _hge
        exact B hle (by omega)
      · omega
      · intro _
        exact Cr (by omega)

/-- Evaluation of the residue branch of `PrepareLoadModel`: profile
present, idle backend, `workload` nonzero and below the max
throughput. -/
theorem prepareLoadModel_residue_eq (db : ProfileDB)
    (self : BackendRpcClient) (sess : ModelSession) (w : ℚ)
    (cfg : ModelInstanceConfig) (occ : ℚ) (p : ModelProfile)
    (hdb : db self.gpu_device (ModelSessionToProfileID sess) = some p)
    (hidle : self.exec_cycle_us = 0)
    (hns : ¬ (w = 0 ∨ ((p.GetMaxThroughput sess.latency_sla).2 : ℚ) ≤ w)) :
    self.PrepareLoadModel db sess w cfg occ =
      (let mb := (p.GetMaxThroughput sess.latency_sla).1
       let lsla : ℚ := (sess.latency_sla : ℚ) * 1000
       let batch := residueBatchLoop p lsla w mb 1
       if batch = 0 then
         ({ cfg with model_session := some sess, batch := 0 }, occ)
       else
         let fwd := p.GetForwardLatency batch
         let duty := lsla - fwd - (p.GetPreprocessLatency : ℚ) -
           (p.GetPostprocessLatency : ℚ)
         ({ cfg with
             model_session := some sess
             batch := batch
             max_batch := mb
             forward_latency := fwd
             memory_usage := p.GetMemoryUsage batch
             throughput := (batch : ℚ) * 1000000 / duty
             workload := w },
          fwd / duty)) := by
  unfold BackendRpcClient.PrepareLoadModel
  dsimp only
  rw [hdb]
  dsimp only
  rw [if_pos hidle, if_neg hns]

/-- C1 (amended): in the residue branch (idle backend, present profile,
`0 < workload < max_throughput`) the returned `batch` is the largest `b`
such that every batch in `[1, b]` satisfies
`(b − 1)·1e6/workload + forward(b) + preprocess + postprocess ≤ sla_us`
— equivalently, the first failing batch minus one: every `b' ≤ batch`
satisfies the constraint and `batch + 1` (when `≤ max_batch`) does not.
(This differs from "the largest satisfying `b`" only for non-monotone
profiles; see the counterexample.)  When `batch ≥ 1` the config carries
`forward_latency = forward(batch)`, `memory_usage = memory(batch)`,
`workload` as offered, `throughput = batch·1e6/D` and
`occupancy = forward(batch)/D` for
`D = sla_us − forward(batch) − preprocess − postprocess`; if no `b ≥ 1`
satisfies the constraint the returned batch is 0. -/
theorem prepareLoadModel_residue_plan (db : ProfileDB)
    (self : BackendRpcClient) (sess : ModelSession) (w : ℚ)
    (cfg : ModelInstanceConfig) (occ : ℚ) (p : ModelProfile)
    (hdb : db self.gpu_device (ModelSessionToProfileID sess) = some p)
    (hidle : self.exec_cycle_us = 0)
    (hw : 0 < w)
    (hwlt : w < ((p.GetMaxThroughput sess.latency_sla).2 : ℚ)) :
    ∀ r, self.PrepareLoadModel db sess w cfg occ = r →
      (∀ b, 1 ≤ b → b ≤ r.1.batch →
        residueFits p ((sess.latency_sla : ℚ) * 1000) w b) ∧
      (r.1.batch + 1 ≤ (p.GetMaxThroughput sess.latency_sla).1 →
        ¬ residueFits p ((sess.latency_sla : ℚ) * 1000) w (r.1.batch + 1)) ∧
      r.1.batch ≤ (p.GetMaxThroughput sess.latency_sla).1 ∧
      ((∀ b, 1 ≤ b → b ≤ (p.GetMaxThroughput sess.latency_sla).1 →
          ¬ residueFits p ((sess.latency_sla : ℚ) * 1000) w b) →
        r.1.batch = 0) ∧
      (1 ≤ r.1.batch →
        r.1.model_session = some sess ∧
        r.1.max_batch = (p.GetMaxThroughput sess.latency_sla).1 ∧
        r.1.forward_latency = p.GetForwardLatency r.1.batch ∧
        r.1.memory_usage = p.GetMemoryUsage r.1.batch ∧
        r.1.workload = w ∧
        r.1.throughput = (r.1.batch : ℚ) * 1000000 /
          ((sess.latency_sla : ℚ) * 1000 -
            p.GetForwardLatency r.1.batch -
            (p.GetPreprocessLatency : ℚ) -
            (p.GetPostprocessLatency : ℚ)) ∧
        r.2 = p.GetForwardLatency r.1.batch /
          ((sess.latency_sla : ℚ) * 1000 -
            p.GetForwardLatency r.1.batch -
            (p.GetPreprocessLatency : ℚ) -
            (p.GetPostprocessLatency : ℚ))) := by
  intro r hr
  have hns : ¬ (w = 0 ∨
      ((p.GetMaxThroughput sess.latency_sla).2 : ℚ) ≤ w) := by
    push_neg
    exact ⟨ne_of_gt hw, hwlt⟩
  rw [prepareLoadModel_residue_eq db self sess w cfg occ p hdb hidle hns]
    at hr
  obtain ⟨A, B, _, Cr⟩ := residueBatchLoop_spec p
    ((sess.latency_sla : ℚ) * 1000) w
    (p.GetMaxThroughput sess.latency_sla).1 1 le_rfl
  by_cases hz : residueBatchLoop p ((sess.latency_sla : ℚ) * 1000) w
      (p.GetMaxThroughput sess.latency_sla).1 1 = 0
  · rw [if_pos hz] at hr
    subst hr
    dsimp only
    refine ⟨?_, ?_, ?_, ?_, ?_⟩
    · intro b hb1 hb2
      omega
    · intro hle hf
      exact B (by omega) (by omega) (by rwa [hz])
    · omega
    · intro _
      rfl
    · intro h1
      omega
  · rw [if_neg hz] at hr
    subst hr
    dsimp only
    have hbl : 1 ≤ residueBatchLoop p ((sess.latency_sla : ℚ) * 1000) w
        (p.GetMaxThroughput sess.latency_sla).1 1 := by omega
    refine ⟨fun b hb1 hb2 => A b hb1 hb2, fun hle => B hle (by omega),
      Cr (by omega), ?_, ?_⟩
    · intro hall
      exact absurd (A _ hbl le_rfl)
        (hall _ hbl (Cr (by omega)))
    · intro _
      exact ⟨rfl, rfl, rfl, rfl, rfl, rfl, rfl⟩

def profW1 : ModelProfile :=
  { GetForwardLatency := fun b => 1000 * b
    GetMemoryUsage := fun _ => 5
    GetPreprocessLatency := 100
    GetPostprocessLatency := 100
    maxKnownBatch := 2 }

def dbW1 : ProfileDB := fun _ _ => some profW1

def sessW1 : ModelSession :=
  { framework := "tf", model_name := "m", version := 1, latency_sla := 10
    image_height := none, image_width := none }

/-- Witness for C1: with `forward(b) = 1000·b`, pre = post = 100,
SLA = 10 ms and workload 100 r/s, the planner selects batch 1, and the
constraint holds at that batch. -/
theorem prepareLoadModel_residue_plan_witness :
    residueFits profW1 ((sessW1.latency_sla : ℚ) * 1000) 100 1 := by
  have hmt : profW1.GetMaxThroughput sessW1.latency_sla = (2, 200) := by
    unfold ModelProfile.GetMaxThroughput
    norm_num [profW1, sessW1, Nat.findGreatest]
  have hf1 : residueFits profW1 ((sessW1.latency_sla : ℚ) * 1000) 100 1 := by
    unfold residueFits
    norm_num [profW1, sessW1]
  have hf2 : ¬ residueFits profW1 ((sessW1.latency_sla : ℚ) * 1000) 100 2 := by
    unfold residueFits
    norm_num [profW1, sessW1]
  obtain ⟨A, B, _, Cr⟩ := residueBatchLoop_spec profW1
    ((sessW1.latency_sla : ℚ) * 1000) 100 2 1 le_rfl
  have hr2 : residueBatchLoop profW1 ((sessW1.latency_sla : ℚ) * 1000)
      100 2 1 ≤ 2 := Cr (by omega)
  have hr0 : residueBatchLoop profW1 ((sessW1.latency_sla : ℚ) * 1000)
      100 2 1 ≠ 0 := by
    intro h
    exact B (by omega) (by omega) (by rw [h]; exact hf1)
  have hrne2 : residueBatchLoop profW1 ((sessW1.latency_sla : ℚ) * 1000)
      100 2 1 ≠ 2 := by
    intro h
    exact hf2 (A 2 (by omega) (by omega))
  have hr1 : residueBatchLoop profW1 ((sessW1.latency_sla : ℚ) * 1000)
      100 2 1 = 1 := by omega
  have h := prepareLoadModel_residue_plan dbW1 bkIdle sessW1 100 {} 0
    profW1 rfl rfl (by norm_num) (by rw [hmt]; norm_num)
    (bkIdle.PrepareLoadModel dbW1 sessW1 100 {} 0) rfl
  have hbatch :
      (bkIdle.PrepareLoadModel dbW1 sessW1 100 {} 0).1.batch = 1 := by
    rw [prepareLoadModel_residue_eq dbW1 bkIdle sessW1 100 {} 0 profW1
      rfl rfl (by rw [hmt]; norm_num)]
    rw [hmt]
    dsimp only
    rw [hr1]
    norm_num
  exact h.1 1 le_rfl (by rw [hbatch])

def profX : ModelProfile :=
  { GetForwardLatency := fun b => if b == 2 then 1000000 else 1000
    GetMemoryUsage := fun _ => 0
    GetPreprocessLatency := 0
    GetPostprocessLatency := 0
    maxKnownBatch := 3 }

def dbX : ProfileDB := fun _ _ => some profX

def sessX : ModelSession :=
  { framework := "tf", model_name := "m", version := 1, latency_sla := 100
    image_height := none, image_width := none }

/-- Counterexample for C1 as stated: with the non-monotone profile
`forward(1) = 1000, forward(2) = 10⁶, forward(3) = 1000` (SLA 100 ms, so
`max_batch = 3`, `max_throughput = 30`) and workload 25 r/s, the source
loop stops at the first failing batch and returns 1, although batch 3
also satisfies the constraint — so the returned batch is not the largest
`b ∈ [1, max_batch]` satisfying the inequality. -/
theorem prepareLoadModel_residue_not_largest :
    (bkIdle.PrepareLoadModel dbX sessX 25 {} 0).1.batch = 1 ∧
      residueFits profX ((sessX.latency_sla : ℚ) * 1000) 25 3 ∧
      3 ≤ (profX.GetMaxThroughput sessX.latency_sla).1 ∧
      0 < (25 : ℚ) ∧
      (25 : ℚ) < ((profX.GetMaxThroughput sessX.latency_sla).2 : ℚ) ∧
      bkIdle.exec_cycle_us = 0 ∧
      ¬ (3 ≤ 1) := by
  have hmt : profX.GetMaxThroughput sessX.latency_sla = (3, 30) := by
    unfold ModelProfile.GetMaxThroughput
    norm_num [profX, sessX, Nat.findGreatest]
  have hf1 : residueFits profX ((sessX.latency_sla : ℚ) * 1000) 25 1 := by
    unfold residueFits
    norm_num [profX, sessX]
  have hf2 : ¬ residueFits profX ((sessX.latency_sla : ℚ) * 1000) 25 2 := by
    unfold residueFits
    norm_num [profX, sessX]
  obtain ⟨A, B, _, Cr⟩ := residueBatchLoop_spec profX
    ((sessX.latency_sla : ℚ) * 1000) 25 3 1 le_rfl
  have hr3 : residueBatchLoop profX ((sessX.latency_sla : ℚ) * 1000)
      25 3 1 ≤ 3 := Cr (by omega)
  have hr0 : residueBatchLoop profX ((sessX.latency_sla : ℚ) * 1000)
      25 3 1 ≠ 0 := by
    intro h
    exact B (by omega) (by omega) (by rw [h]; exact hf1)
  have hrne2 : residueBatchLoop profX ((sessX.latency_sla : ℚ) * 1000)
      25 3 1 ≠ 2 := by
    intro h
    exact hf2 (A 2 (by omega) (by omega))
  have hrne3 : residueBatchLoop profX ((sessX.latency_sla : ℚ) * 1000)
      25 3 1 ≠ 3 := by
    intro h
    exact hf2 (A 2 (by omega) (by omega))
  have hr1 : residueBatchLoop profX ((sessX.latency_sla : ℚ) * 1000)
      25 3 1 = 1 := by omega
  refine ⟨?_, ?_, ?_, by norm_num, ?_, rfl, by norm_num⟩
  · rw [prepareLoadModel_residue_eq dbX bkIdle sessX 25 {} 0 profX
      rfl rfl (by rw [hmt]; norm_num)]
    rw [hmt]
    dsimp only
    rw [hr1]
    norm_num
  · unfold residueFits
    norm_num [profX, sessX]
  · rw [hmt]
  · rw [hmt]
    norm_num

end Nexus
